import Mathlib

/-!
Verification of the argument classification and step-assembly engine of
`mrjob/tools/spark_submit.py` (the spark-submit-compatible CLI adapter).

The option tables, the spark-argument reconstruction (`_get_spark_args`),
the step builder (`_get_step`) and the `main` dispatch logic are translated
directly from the source file.  Parts of the program that live outside the
provided sources (the `mrjob.options` runner-option table, the raw-argument
recovery pass `_parse_raw_args`, the runner classes and the `argparse`
substrate) are modelled from the specification; each such definition is
marked `Modelled from the spec:` in its doc comment.
-/

namespace SparkSubmit

/-! ## Option tables (translated from the source) -/

/-- The only runners that support spark scripts/jars: `_SPARK_RUNNERS`. -/
def sparkRunners : List String := ["emr", "hadoop"]

/-- The default spark runner: `_DEFAULT_RUNNER`. -/
def defaultRunner : String := "hadoop"

/-- `_SPARK_SUBMIT_SWITCHES`: option name to command-line switch string. -/
def sparkSubmitSwitches : List (String × String) :=
  [ ("cmdenv", "--cmdenv"),
    ("driver_class_path", "--driver-class-path"),
    ("driver_cores", "--driver-cores"),
    ("driver_java_options", "--driver-java-options"),
    ("driver_library_path", "--driver-library-path"),
    ("driver_memory", "--driver-memory"),
    ("exclude_packages", "--exclude-packages"),
    ("executor_cores", "--executor-cores"),
    ("executor_memory", "--executor-memory"),
    ("jobconf", "--conf"),
    ("keytab", "--keytab"),
    ("libjars", "--jars"),
    ("main_class", "--class"),
    ("name", "--name"),
    ("num_executors", "--num-executors"),
    ("packages", "--packages"),
    ("principal", "--principal"),
    ("properties_file", "--properties-file"),
    ("proxy_user", "--proxy-user"),
    ("py_files", "--py-files"),
    ("queue_name", "--queue"),
    ("repositories", "--repositories"),
    ("spark_deploy_mode", "--deploy-mode"),
    ("spark_master", "--master"),
    ("supervise", "--supervise"),
    ("total_executor_cores", "--total-executor-cores"),
    ("upload_archives", "--archives"),
    ("upload_dirs", "--dirs"),
    ("upload_files", "--files") ]

/-- The keys of `_SPARK_SUBMIT_SWITCHES` (`set(_SPARK_SUBMIT_SWITCHES)` in the
source): the full set of known switch-bearing option names. -/
def knownOptNames : List String := sparkSubmitSwitches.map Prod.fst

/-- `_SPARK_SUBMIT_ARG_GROUPS` restricted to what the claims need: the group
titles and the option names in each group (help text omitted). -/
def sparkSubmitArgGroups : List (Option String × List String) :=
  [ (none,
      ["spark_deploy_mode", "main_class", "name", "libjars", "packages",
       "exclude_packages", "repositories", "py_files", "upload_files",
       "cmdenv", "jobconf", "properties_file", "driver_memory",
       "driver_java_options", "driver_library_path", "driver_class_path",
       "executor_memory", "proxy_user"]),
    (some "Hadoop runner only", ["spark_master"]),
    (some "Cluster deploy mode only", ["driver_cores"]),
    (some "Spark standalone or Mesos with cluster deploy mode only",
      ["supervise"]),
    (some "Spark standalone and Mesos only", ["total_executor_cores"]),
    (some "Spark standalone and YARN only", ["executor_cores"]),
    (some "YARN-only",
      ["queue_name", "num_executors", "upload_archives", "upload_dirs",
       "principal", "keytab"]) ]

/-- `_SPARK_SUBMIT_OPT_NAMES`: every option name mentioned in the argument
groups. -/
def sparkSubmitOptNames : List String :=
  (sparkSubmitArgGroups.map Prod.snd).flatten

/-- `_STEP_OPT_NAMES`: not a runner opt nor passed straight through to spark. -/
def stepOptNames : List String := ["main_class"]

/-- Modelled from the spec: the keys of `mrjob.options._RUNNER_OPTS`
restricted to the spark-submit option names (the full table is not under
`src/`).  The source forces the four aliased options to be runner options:
`_SWITCH_ALIASES` maps each spark spelling to the runner's own spelling, and
`_add_spark_submit_arg` looks up the runner declaration of exactly these
switches (it searches `_RUNNER_OPTS[opt_name]['switches']` for the alias), so
`spark_master`, `spark_deploy_mode`, `libjars` and `jobconf` are declared
runner options; the spec names no other switch-bearing option as
backend-declared. -/
def runnerOptsKeys : List String :=
  ["spark_master", "spark_deploy_mode", "libjars", "jobconf"]

/-- `_SPARK_ARG_OPT_NAMES = set(_SPARK_SUBMIT_SWITCHES) - set(_RUNNER_OPTS)
- _STEP_OPT_NAMES`: the options whose raw tokens are passed straight through
to spark-submit. -/
def sparkArgOptNames : List String :=
  knownOptNames.filter
    (fun o => decide (o ∉ runnerOptsKeys) && decide (o ∉ stepOptNames))

/-- The runner-option class among the known switch-bearing names: the
options consumed as typed runner configuration rather than forwarded. -/
def runnerClassOptNames : List String :=
  knownOptNames.filter (fun o => decide (o ∈ runnerOptsKeys))

/-- `_SWITCH_ALIASES`: spark-submit switch spelling to the runner's own
spelling for the same destination. -/
def switchAliases : List (String × String) :=
  [ ("--master", "--spark-master"),
    ("--deploy-mode", "--spark-deploy-mode"),
    ("--jars", "--libjars"),
    ("--conf", "--jobconf") ]

/-- Typed option values, as far as the claims need them. -/
inductive PyValue where
  | str (s : String)
  | bool (b : Bool)
  | none
  | list (xs : List String)
deriving DecidableEq

/-- `_HARD_CODED_OPTS`: options that make no sense with Spark scripts,
forced unconditionally by `main`. -/
def hardCodedOpts : List (String × PyValue) :=
  [ ("check_input_paths", PyValue.bool false),
    ("output_dir", PyValue.none) ]

/-- `os.devnull` on POSIX, used by `main` as the synthetic empty input. -/
def devNull : String := "/dev/null"

/-! ## Python string primitives used by `_get_step`

`_get_step` relies on `str.lower`, `str.endswith`, `str.split('.')` and
`str.startswith`; they are embedded over `List Char` (all paths involved in
the claims are ASCII, where Python's `str.lower` is plain ASCII
lowercasing). -/

/-- ASCII lowercasing of one character (Python `str.lower` on ASCII). -/
def pyToLower (c : Char) : Char :=
  match c with
  | 'A' => 'a' | 'B' => 'b' | 'C' => 'c' | 'D' => 'd' | 'E' => 'e'
  | 'F' => 'f' | 'G' => 'g' | 'H' => 'h' | 'I' => 'i' | 'J' => 'j'
  | 'K' => 'k' | 'L' => 'l' | 'M' => 'm' | 'N' => 'n' | 'O' => 'o'
  | 'P' => 'p' | 'Q' => 'q' | 'R' => 'r' | 'S' => 's' | 'T' => 't'
  | 'U' => 'u' | 'V' => 'v' | 'W' => 'w' | 'X' => 'x' | 'Y' => 'y'
  | 'Z' => 'z' | other => other

/-- Python `s.lower()` over the character list. -/
def lowerChars (cs : List Char) : List Char := cs.map pyToLower

/-- Python `s.endswith(suf)`: the last `|suf|` characters equal `suf`. -/
def endsWithChars (suf cs : List Char) : Bool :=
  cs.drop (cs.length - suf.length) == suf

/-- Python `s.startswith(pre)`. -/
def startsWithChars : List Char → List Char → Bool
  | [], _ => true
  | _ :: _, [] => false
  | p :: ps, c :: cs => p == c && startsWithChars ps cs

/-- Python `s.split('.')`: always returns at least one piece; consecutive
dots yield empty pieces. -/
def splitDotChars : List Char → List (List Char)
  | [] => [[]]
  | c :: rest =>
    match splitDotChars rest with
    | [] => []
    | piece :: more =>
      if c = '.' then [] :: piece :: more else (c :: piece) :: more

/-- Python `s.split('.')[-1]`: the (always present) last piece. -/
def lastPieceChars (cs : List Char) : List Char :=
  (splitDotChars cs).getLastD []

/-! ## The step builder `_get_step` -/

/-- Modelled from the spec: the Step Description variants built by
`_get_step` (`SparkJarStep` / `SparkScriptStep` from `mrjob.step` are not
under `src/`).  Script Step = script path, positional args, forwarded
spark-arg tokens; Application (jar) Step additionally carries the main entry
class. -/
inductive SparkStep where
  | jarStep (jar : String) (mainClass : Option String)
      (args : List String) (sparkArgs : List String)
  | scriptStep (script : String) (args : List String)
      (sparkArgs : List String)
deriving DecidableEq

/-- The suffix `.jar` as characters. -/
def jarSuffix : List Char := ['.', 'j', 'a', 'r']

/-- The script-extension test characters `py`. -/
def pyChars : List Char := ['p', 'y']

/-- Tail of the `ValueError` message raised by `_get_step`. -/
def notJarOrScriptMsg : String := " appears not to be a JAR or Python script"

/-- `_get_step`, translated from the source: classify the positional target
by filename suffix and build the step. -/
def getStep (args : List String) (mainClass : Option String)
    (sparkArgs : List String) (scriptOrJar : String) :
    Except String SparkStep :=
  let low := lowerChars scriptOrJar.data
  if endsWithChars jarSuffix low then
    Except.ok (SparkStep.jarStep scriptOrJar mainClass args sparkArgs)
  else if startsWithChars pyChars (lastPieceChars low) then
    Except.ok (SparkStep.scriptStep scriptOrJar args sparkArgs)
  else
    Except.error (scriptOrJar ++ notJarOrScriptMsg)

/-! ## The argument parser

`argparse` and `mrjob.options._parse_raw_args` are outside `src/`; the
parsing substrate is modelled from the spec (section 4.4): every switch is
registered with a destination key and a value arity shared by the typed pass
and the raw pass, and the raw pass records, for every switch occurrence in
input order, the destination, the switch spelling as written and the value
tokens it consumed.  Every switch of this program takes either no value
(`store_true` flags) or exactly one value. -/

/-- One registered switch: its option strings, destination key, and whether
it consumes a following value token. -/
structure Action where
  switches : List String
  dest : String
  takesValue : Bool
deriving DecidableEq

/-- Modelled from the spec: the adapter-level switches (`_add_basic_args`,
`_add_runner_alias_arg`, `_add_help_arg`, `_add_deprecated_arg`; the first
is from `mrjob.options`, not under `src/`): backend alias, help flag,
verbosity flags, and the deprecated-options flag. -/
def basicActions : List Action :=
  [ ⟨["-r", "--runner"], "runner", true⟩,
    ⟨["-h", "--help"], "help", false⟩,
    ⟨["--deprecated"], "deprecated", false⟩,
    ⟨["-q", "--quiet"], "quiet", false⟩,
    ⟨["-v", "--verbose"], "verbose", false⟩ ]

/-- Modelled from the spec: `_add_runner_args` (from `mrjob.options`, not
under `src/`) registers each runner option under the runner's own switch
spelling with its declared destination; for the aliased options the source's
`_add_spark_submit_arg` searches `_RUNNER_OPTS[opt_name]['switches']` for
exactly these spellings. -/
def runnerOptActions : List Action :=
  [ ⟨["--spark-master"], "spark_master", true⟩,
    ⟨["--spark-deploy-mode"], "spark_deploy_mode", true⟩,
    ⟨["--libjars"], "libjars", true⟩,
    ⟨["--jobconf"], "jobconf", true⟩ ]

/-- `_add_spark_submit_arg`, translated from the source: register the
spark-submit switch with the option name as destination; non-default
behavior comes from `_SPARK_SUBMIT_ARG_KWARGS` (only `supervise` is a
`store_true` flag). -/
def addSparkSubmitArg (optName switch : String) : Action :=
  ⟨[switch], optName, decide (optName ≠ "supervise")⟩

/-- `_make_arg_parser`, translated from the source: basic args, runner args,
then one spark-submit switch per entry of `_SPARK_SUBMIT_SWITCHES`, skipping
an entry whose option is a runner option unless its switch is an alias
spelling. -/
def makeArgActions : List Action :=
  basicActions ++ runnerOptActions ++
    sparkSubmitSwitches.filterMap
      (fun p =>
        if p.1 ∈ runnerOptsKeys ∧ p.2 ∉ switchAliases.map Prod.fst then
          Option.none
        else Option.some (addSparkSubmitArg p.1 p.2))

/-- Every option string registered in the parser built by
`_make_arg_parser`. -/
def liveSwitches : List String :=
  (makeArgActions.map Action.switches).flatten

/-- One raw-argument record of `_parse_raw_args`: destination key, switch
spelling as written, and the value tokens the switch consumed. -/
structure RawRecord where
  dest : String
  switch : String
  args : List String
deriving DecidableEq

/-- Look up the action owning a token among the registered switches. -/
def findAction (acts : List Action) (tok : String) : Option Action :=
  acts.find? (fun a => tok ∈ a.switches)

/-- Modelled from the spec: the raw pass of `_parse_raw_args` (from
`mrjob.options`, not under `src/`): scan the token stream left to right; a
registered switch consumes its value tokens and yields a record; any other
token (a positional or a value) yields nothing.  Both parse passes share
this switch-to-arity mapping. -/
def scanArgs (acts : List Action) : List String → List RawRecord
  | [] => []
  | tok :: rest =>
    match findAction acts tok with
    | Option.none => scanArgs acts rest
    | Option.some a =>
      if a.takesValue then
        match rest with
        | [] => [⟨a.dest, tok, []⟩]
        | v :: rest2 => ⟨a.dest, tok, [v]⟩ :: scanArgs acts rest2
      else ⟨a.dest, tok, []⟩ :: scanArgs acts rest

/-- Whether a raw record belongs to an option forwarded straight to
spark-submit. -/
def isForward (r : RawRecord) : Bool := decide (r.dest ∈ sparkArgOptNames)

/-- The tokens a forwarded record contributes: the switch spelling followed
by its value tokens. -/
def renderRecord (r : RawRecord) : List String := r.switch :: r.args

/-- `_get_spark_args`, translated from the source: walk the raw records in
order; for every record whose destination is a forward option, append the
switch string and then its value tokens. -/
def getSparkArgs (acts : List Action) (clArgs : List String) : List String :=
  (scanArgs acts clArgs).foldl
    (fun acc r => if isForward r then acc ++ renderRecord r else acc) []

/-! ## Typed values and the conventional parse pass -/

/-- Association-list model of a Python dict: `setItem` binds a key, and
`lookupKey` returns the most recent binding. -/
def setItem (m : List (String × PyValue)) (k : String) (v : PyValue) :
    List (String × PyValue) :=
  (k, v) :: m

/-- Look up the most recent binding of a key. -/
def lookupKey (m : List (String × PyValue)) (k : String) : Option PyValue :=
  match m.find? (fun p => p.1 == k) with
  | Option.some p => Option.some p.2
  | Option.none => Option.none

/-- Apply a list of updates in order (Python `dict.update`). -/
def updateMany (m : List (String × PyValue))
    (entries : List (String × PyValue)) : List (String × PyValue) :=
  entries.foldl (fun acc kv => setItem acc kv.1 kv.2) m

/-- The options namespace produced by `parser.parse_args`. -/
structure ParsedOptions where
  runner : Option String := Option.none
  help : Bool := false
  deprecated : Bool := false
  quiet : Bool := false
  verbose : Bool := false
  scriptOrJar : Option String := Option.none
  posArgs : List String := []
  typed : List (String × PyValue) := []
deriving DecidableEq

/-- Parse-time failures (reported as usage errors on standard error, exit
nonzero). -/
inductive ParseErr where
  | unsupportedBackend (a : String)
  | unrecognizedSwitch (tok : String)
  | missingValue (tok : String)
deriving DecidableEq

/-- Modelled from the spec: the conventional `argparse` pass.  It shares the
switch table (and hence the value arity) with the raw pass; `-r` rejects an
alias outside `_SPARK_RUNNERS` (the `choices` of `_add_runner_alias_arg`);
a dash-led token matching no registered switch is a usage error; the first
plain token is the positional target, the rest are the trailing args. -/
def parseLoop (acts : List Action) (acc : ParsedOptions) :
    List String → Except ParseErr ParsedOptions
  | [] => Except.ok acc
  | tok :: rest =>
    match findAction acts tok with
    | Option.some a =>
      if a.takesValue then
        match rest with
        | [] => Except.error (ParseErr.missingValue tok)
        | v :: rest2 =>
          if a.dest = "runner" then
            if v ∈ sparkRunners then
              parseLoop acts { acc with runner := Option.some v } rest2
            else Except.error (ParseErr.unsupportedBackend v)
          else
            parseLoop acts
              { acc with typed := setItem acc.typed a.dest (PyValue.str v) }
              rest2
      else
        if a.dest = "help" then
          parseLoop acts { acc with help := true } rest
        else if a.dest = "deprecated" then
          parseLoop acts { acc with deprecated := true } rest
        else if a.dest = "quiet" then
          parseLoop acts { acc with quiet := true } rest
        else if a.dest = "verbose" then
          parseLoop acts { acc with verbose := true } rest
        else
          parseLoop acts
            { acc with typed := setItem acc.typed a.dest (PyValue.bool true) }
            rest
    | Option.none =>
      if startsWithChars ['-'] tok.data ∧ tok ≠ "-" then
        Except.error (ParseErr.unrecognizedSwitch tok)
      else if acc.scriptOrJar.isNone then
        parseLoop acts { acc with scriptOrJar := Option.some tok } rest
      else
        parseLoop acts { acc with posArgs := acc.posArgs ++ [tok] } rest

/-- `parser.parse_args(cl_args)` over the parser of `_make_arg_parser`. -/
def parseOptions (clArgs : List String) : Except ParseErr ParsedOptions :=
  parseLoop makeArgActions {} clArgs

/-! ## The dispatcher `main` -/

/-- Modelled from the spec: each eligible backend's declared option-name set
(`runner_class.OPT_NAMES`; `mrjob.runner` is not under `src/`), restricted
to the spark-submit option names.  The source's help groups mark
`spark_master` as "Hadoop runner only", so the emr backend does not declare
it; the aliased options are backend-declared (see `runnerOptsKeys`). -/
def runnerClassOptNamesFor : String → List String
  | "hadoop" => ["spark_master", "spark_deploy_mode", "libjars", "jobconf"]
  | "emr" => ["spark_deploy_mode", "libjars", "jobconf"]
  | _ => []

/-- `_get_runner_opt_kwargs`, translated from the source: the typed values
of the options the selected runner class declares. -/
def getRunnerOptKwargs (opts : ParsedOptions) (runnerAlias : String) :
    List (String × PyValue) :=
  (runnerClassOptNamesFor runnerAlias).filterMap
    (fun o => (lookupKey opts.typed o).map (fun v => (o, v)))

/-- What one invocation of `main` does, observably. -/
inductive Outcome where
  | usage (e : ParseErr)
  | helpShown (basic : Bool) (exitCode : Nat)
  | artifactError (msg : String)
  | run (runnerAlias : String) (kwargs : List (String × PyValue))
      (step : SparkStep)
deriving DecidableEq

/-- `main` after a successful parse, translated from the source: default the
runner alias, fall back to help when the help flag is set or no target was
given (`_print_help` shows the runner-specific help only when both the help
flag and a runner alias were given), otherwise assemble the runner kwargs
(declared option values, then `_HARD_CODED_OPTS`, then
`input_paths = [os.devnull]`), build the step from the target and the
forwarded spark args, and run. -/
def mainWithOptions (opts : ParsedOptions) (clArgs : List String) : Outcome :=
  let runnerAlias := opts.runner.getD defaultRunner
  if opts.help || opts.scriptOrJar.isNone then
    Outcome.helpShown (!(opts.help && opts.runner.isSome)) 0
  else
    let kwargs :=
      setItem (updateMany (getRunnerOptKwargs opts runnerAlias) hardCodedOpts)
        ("input_paths") (PyValue.list [devNull])
    let mainClass :=
      match lookupKey opts.typed ("main_class") with
      | Option.some (PyValue.str s) => Option.some s
      | _ => Option.none
    match getStep opts.posArgs mainClass (getSparkArgs makeArgActions clArgs)
        (opts.scriptOrJar.getD "") with
    | Except.error msg => Outcome.artifactError msg
    | Except.ok st => Outcome.run runnerAlias kwargs st

/-- `main(cl_args)`: parse, then dispatch. -/
def mainTokens (clArgs : List String) : Outcome :=
  match parseOptions clArgs with
  | Except.error e => Outcome.usage e
  | Except.ok opts => mainWithOptions opts clArgs

/-! ## Helper lemmas -/

/-- The most recent binding wins. -/
theorem lookupKey_setItem_self (m : List (String × PyValue)) (k : String)
    (v : PyValue) : lookupKey (setItem m k v) k = Option.some v := by
  simp [lookupKey, setItem, List.find?_cons]

/-- Binding another key does not change a lookup. -/
theorem lookupKey_setItem_ne (m : List (String × PyValue)) (k k' : String)
    (v : PyValue) (h : k' ≠ k) :
    lookupKey (setItem m k' v) k = lookupKey m k := by
  have hb : (k' == k) = false := by simpa using h
  simp [lookupKey, setItem, List.find?_cons, hb]

/-- ASCII lowercasing maps only `'.'` to `'.'`. -/
theorem pyToLower_eq_dot {c : Char} (h : pyToLower c = '.') : c = '.' := by
  unfold pyToLower at h
  split at h <;> simp_all

/-- Lowercasing cannot introduce a dot. -/
theorem dot_notMem_lower {cs : List Char} (h : ('.') ∉ cs) :
    ('.') ∉ lowerChars cs := by
  intro hm
  rcases List.mem_map.mp hm with ⟨c, hc, hlc⟩
  exact h (pyToLower_eq_dot hlc ▸ hc)

/-- A dot-free string does not end in `.jar`. -/
theorem endsWith_jar_eq_false {ls : List Char} (h : ('.') ∉ ls) :
    endsWithChars jarSuffix ls = false := by
  cases he : endsWithChars jarSuffix ls with
  | false => rfl
  | true =>
    exfalso
    have heq : ls.drop (ls.length - jarSuffix.length) = jarSuffix :=
      eq_of_beq (by simpa [endsWithChars] using he)
    have hmem : ('.') ∈ ls.drop (ls.length - jarSuffix.length) := by
      rw [heq]; simp [jarSuffix]
    exact h (List.drop_subset _ _ hmem)

/-- Splitting a dot-free string on dots yields the whole string. -/
theorem splitDot_no_dot {cs : List Char} (h : ('.') ∉ cs) :
    splitDotChars cs = [cs] := by
  induction cs with
  | nil => rfl
  | cons c rest ih =>
    have hc : ¬c = '.' := fun e => h (e ▸ List.mem_cons_self c rest)
    have hr : ('.') ∉ rest := fun hm => h (List.mem_cons_of_mem _ hm)
    simp [splitDotChars, ih hr, hc]

/-- The last piece of a dot-free string is the whole string. -/
theorem lastPiece_no_dot {cs : List Char} (h : ('.') ∉ cs) :
    lastPieceChars cs = cs := by
  simp [lastPieceChars, splitDot_no_dot h]

/-- The accumulator loop of `_get_spark_args` is a filter of the raw
records followed by rendering each kept record. -/
theorem foldl_forward_eq (l : List RawRecord) (init : List String) :
    l.foldl (fun acc r => if isForward r then acc ++ renderRecord r else acc)
        init =
      init ++ ((l.filter isForward).map renderRecord).flatten := by
  induction l generalizing init with
  | nil => simp
  | cons r t ih =>
    by_cases hf : isForward r = true
    · simp [hf, ih, List.filter_cons]
    · simp [hf, ih, List.filter_cons]

/-- The rendered forwarded records form a sublist of the input token
stream: forwarding preserves the writer-specified order. -/
theorem scan_render_sublist (acts : List Action) :
    ∀ (n : Nat) (cl : List String), cl.length ≤ n →
      List.Sublist
        (((scanArgs acts cl).filter isForward).map renderRecord).flatten cl := by
  intro n
  induction n with
  | zero =>
    intro cl h
    have : cl = [] := List.length_eq_zero.mp (Nat.le_zero.mp h)
    subst this
    simp [scanArgs]
  | succ n ih =>
    intro cl h
    match cl with
    | [] => simp [scanArgs]
    | tok :: rest =>
      have hr : rest.length ≤ n := by
        simp only [List.length_cons] at h; omega
      cases hfa : findAction acts tok with
      | none =>
        simpa [scanArgs, hfa] using (ih rest hr).cons tok
      | some a =>
        by_cases hv : a.takesValue = true
        · match rest with
          | [] =>
            by_cases hf : isForward ⟨a.dest, tok, []⟩ = true <;>
              simp [scanArgs, hfa, hv, hf, List.filter_cons, renderRecord]
          | v :: rest2 =>
            have hr2 : rest2.length ≤ n := by
              simp only [List.length_cons] at hr ⊢; omega
            by_cases hf : isForward ⟨a.dest, tok, [v]⟩ = true
            · have := ((ih rest2 hr2).cons₂ v).cons₂ tok
              simpa [scanArgs, hfa, hv, hf, List.filter_cons,
                renderRecord] using this
            · have := ((ih rest2 hr2).cons v).cons tok
              simpa [scanArgs, hfa, hv, hf, List.filter_cons] using this
        · by_cases hf : isForward ⟨a.dest, tok, []⟩ = true
          · have := (ih rest hr).cons₂ tok
            simpa [scanArgs, hfa, hv, hf, List.filter_cons,
              renderRecord] using this
          · have := (ih rest hr).cons tok
            simpa [scanArgs, hfa, hv, hf, List.filter_cons] using this

/-! ## Claims -/

/-- C1 counterexample: on the input tokens
`--files a --conf X=1 --files b --conf Y=2` (with target `job.py`), the list
produced by `_get_spark_args` is not the full eight-token list the claim
states: the `--conf` occurrences have destination `jobconf`, a runner
option, so they are not forwarded. -/
theorem c1_order_example_counterexample :
    getSparkArgs makeArgActions
        ["--files", "a", "--conf", "X=1", "--files", "b", "--conf", "Y=2",
         "job.py"] ≠
      ["--files", "a", "--conf", "X=1", "--files", "b", "--conf", "Y=2"] := by
  decide

/-- C1 amended: on that input, `_get_spark_args` forwards exactly the
occurrences whose destination is a forward option — the two `--files`
pairs, kept as separate entries in input order — and drops the `--conf`
pairs, whose destination `jobconf` is a runner option. -/
theorem c1_order_example_amended :
    getSparkArgs makeArgActions
        ["--files", "a", "--conf", "X=1", "--files", "b", "--conf", "Y=2",
         "job.py"] =
      ["--files", "a", "--files", "b"] := by decide

/-- C2: for every input token list, the forwarded spark-argument list is the
concatenation, in input-stream order, of switch-then-values for exactly the
switch occurrences classified as forward options (repeats kept separate),
and it is a sublist of the original token stream. -/
theorem c2_forward_order_preserved (clArgs : List String) :
    getSparkArgs makeArgActions clArgs =
      (((scanArgs makeArgActions clArgs).filter isForward).map
          renderRecord).flatten ∧
    List.Sublist (getSparkArgs makeArgActions clArgs) clArgs := by
  constructor
  · simpa [getSparkArgs] using
      foldl_forward_eq (scanArgs makeArgActions clArgs) []
  · have h1 := foldl_forward_eq (scanArgs makeArgActions clArgs) []
    have h2 :=
      scan_render_sublist makeArgActions clArgs.length clArgs (Nat.le_refl _)
    simpa [getSparkArgs] using h1 ▸ h2

/-- Witness for C2 at a concrete interleaved token list. -/
theorem c2_forward_order_preserved_witness :
    List.Sublist
      (getSparkArgs makeArgActions
        ["--name", "app", "--conf", "X=1", "--num-executors", "2", "job.py"])
      ["--name", "app", "--conf", "X=1", "--num-executors", "2", "job.py"] :=
  (c2_forward_order_preserved
    ["--name", "app", "--conf", "X=1", "--num-executors", "2", "job.py"]).2

/-- C3: for every backend in the eligible set, the three option classes
(forward, runner, step) are pairwise disjoint and their union is exactly
the keys of `_SPARK_SUBMIT_SWITCHES`. -/
theorem c3_partition_complete (b : String) (hb : b ∈ sparkRunners) :
    (∀ o ∈ sparkArgOptNames, o ∉ runnerClassOptNames ∧ o ∉ stepOptNames) ∧
    (∀ o ∈ runnerClassOptNames, o ∉ stepOptNames) ∧
    (∀ o ∈ knownOptNames,
      o ∈ sparkArgOptNames ∨ o ∈ runnerClassOptNames ∨ o ∈ stepOptNames) ∧
    (∀ o ∈ sparkArgOptNames, o ∈ knownOptNames) ∧
    (∀ o ∈ runnerClassOptNames, o ∈ knownOptNames) ∧
    (∀ o ∈ stepOptNames, o ∈ knownOptNames) := by decide

/-- Witness for C3 at the concrete backend `emr` and the option `name`. -/
theorem c3_partition_complete_witness :
    ("name") ∈ sparkArgOptNames ∧
    ("name") ∉ runnerClassOptNames ∧ ("name") ∉ stepOptNames :=
  ⟨by decide,
    (c3_partition_complete ("emr") (by decide)).1 ("name") (by decide)⟩

/-- C4 counterexample: `spark_master` is a known switch-bearing option that
the emr backend does not declare, yet it is not classified as forward-only
— the forward set is carved out of the global runner-option table, not the
selected backend's declared set. -/
theorem c4_backend_relative_counterexample :
    ("spark_master") ∈ knownOptNames ∧
    ("spark_master") ∉ runnerClassOptNamesFor ("emr") ∧
    ("spark_master") ∉ sparkArgOptNames := by decide

/-- C4 amended: the forward set is computed once, from the module-level
tables, as the known switch-bearing names minus the global runner-option
names minus the step-only names; it does not mention the selected backend
and is therefore never recomputed when the backend changes. -/
theorem c4_forward_set_is_global (o : String) :
    o ∈ sparkArgOptNames ↔
      o ∈ knownOptNames ∧ o ∉ runnerOptsKeys ∧ o ∉ stepOptNames := by
  simp [sparkArgOptNames, List.mem_filter]

/-- Witness for C4's amended characterization at the option `name`. -/
theorem c4_forward_set_is_global_witness : ("name") ∈ sparkArgOptNames :=
  (c4_forward_set_is_global ("name")).mpr (by decide)

/-- C5: step building classifies the target by suffix — a path
case-insensitively ending in `.jar` yields an Application (jar) Step whose
main class is the `main_class` step option; otherwise a path whose extension
starts with `py` yields a Script Step; otherwise step building fails with an
error naming the path.  `job.py` → Script, `App.jar` → Application,
`data.txt` → error. -/
theorem c5_artifact_classification :
    (∀ (args : List String) (mc : Option String) (sa : List String)
        (path : String),
      endsWithChars jarSuffix (lowerChars path.data) = true →
      getStep args mc sa path =
        Except.ok (SparkStep.jarStep path mc args sa)) ∧
    (∀ (args : List String) (mc : Option String) (sa : List String)
        (path : String),
      endsWithChars jarSuffix (lowerChars path.data) = false →
      startsWithChars pyChars (lastPieceChars (lowerChars path.data)) =
        true →
      getStep args mc sa path =
        Except.ok (SparkStep.scriptStep path args sa)) ∧
    (∀ (args : List String) (mc : Option String) (sa : List String)
        (path : String),
      endsWithChars jarSuffix (lowerChars path.data) = false →
      startsWithChars pyChars (lastPieceChars (lowerChars path.data)) =
        false →
      getStep args mc sa path = Except.error (path ++ notJarOrScriptMsg)) ∧
    getStep [] Option.none [] ("job.py") =
      Except.ok (SparkStep.scriptStep ("job.py") [] []) ∧
    (∀ mc, getStep [] mc [] ("App.jar") =
      Except.ok (SparkStep.jarStep ("App.jar") mc [] [])) ∧
    getStep [] Option.none [] ("data.txt") =
      Except.error (("data.txt") ++ notJarOrScriptMsg) := by
  refine ⟨?_, ?_, ?_, rfl, fun mc => rfl, rfl⟩
  · intro args mc sa path h1
    simp [getStep, h1]
  · intro args mc sa path h1 h2
    simp [getStep, h1, h2]
  · intro args mc sa path h1 h2
    simp [getStep, h1, h2]

/-- Witness for C5 at the uppercase jar `x.JAR`. -/
theorem c5_artifact_classification_witness :
    getStep [] (Option.some ("M")) [] ("x.JAR") =
      Except.ok (SparkStep.jarStep ("x.JAR") (Option.some ("M")) [] []) :=
  c5_artifact_classification.1 [] (Option.some ("M")) [] ("x.JAR")
    (by decide)

/-- C6: with no positional target and no help flag, `main` shows the basic
help and exits 0; it neither reports a usage error nor constructs or runs a
backend.  The bare invocation (no tokens at all) does the same. -/
theorem c6_help_fallback (opts : ParsedOptions) (clArgs : List String)
    (hscript : opts.scriptOrJar = Option.none) (hhelp : opts.help = false) :
    mainWithOptions opts clArgs = Outcome.helpShown true 0 ∧
    (∀ a kw st, mainWithOptions opts clArgs ≠ Outcome.run a kw st) ∧
    (∀ e, mainWithOptions opts clArgs ≠ Outcome.usage e) ∧
    mainTokens [] = Outcome.helpShown true 0 := by
  have hmain : mainWithOptions opts clArgs = Outcome.helpShown true 0 := by
    simp [mainWithOptions, hscript, hhelp]
  exact ⟨hmain, fun a kw st => by simp [hmain], fun e => by simp [hmain],
    by decide⟩

/-- Witness for C6 at the empty options namespace. -/
theorem c6_help_fallback_witness :
    mainWithOptions {} [] = Outcome.helpShown true 0 :=
  (c6_help_fallback {} [] rfl rfl).1

/-- C7: an `-r`/`--runner` alias outside the eligible set fails as an
unsupported-backend usage error during argument parsing — before any
backend-specific option value is consumed and before any backend runs. -/
theorem c7_unsupported_backend (a : String) (rest : List String)
    (h : a ∉ sparkRunners) :
    mainTokens (("-r") :: a :: rest) =
      Outcome.usage (ParseErr.unsupportedBackend a) ∧
    mainTokens (("--runner") :: a :: rest) =
      Outcome.usage (ParseErr.unsupportedBackend a) ∧
    (∀ al kw st, mainTokens (("-r") :: a :: rest) ≠ Outcome.run al kw st) := by
  have h1 : parseOptions (("-r") :: a :: rest) =
      (if a ∈ sparkRunners then
        parseLoop makeArgActions { runner := Option.some a } rest
       else Except.error (ParseErr.unsupportedBackend a)) := rfl
  have h2 : parseOptions (("--runner") :: a :: rest) =
      (if a ∈ sparkRunners then
        parseLoop makeArgActions { runner := Option.some a } rest
       else Except.error (ParseErr.unsupportedBackend a)) := rfl
  have hp1 : parseOptions (("-r") :: a :: rest) =
      Except.error (ParseErr.unsupportedBackend a) := by
    rw [h1, if_neg h]
  have hp2 : parseOptions (("--runner") :: a :: rest) =
      Except.error (ParseErr.unsupportedBackend a) := by
    rw [h2, if_neg h]
  refine ⟨?_, ?_, ?_⟩
  · simp [mainTokens, hp1]
  · simp [mainTokens, hp2]
  · intro al kw st
    simp [mainTokens, hp1]

/-- Witness for C7 at the ineligible alias `local`. -/
theorem c7_unsupported_backend_witness :
    mainTokens [("-r"), ("local"), ("job.py")] =
      Outcome.usage (ParseErr.unsupportedBackend ("local")) :=
  (c7_unsupported_backend ("local") [("job.py")] (by decide)).1

/-- C8 counterexample: the adapter spelling `--master` and the backend
spelling `--spark-master` are both registered as live switches in the very
same parser, contradicting the claim that the two spellings are never both
live. -/
theorem c8_alias_both_live_counterexample :
    ("--master") ∈ liveSwitches ∧ ("--spark-master") ∈ liveSwitches := by
  decide

/-- C8 amended: both spellings of the aliased option are live
simultaneously and share the destination key `spark_master`, so parsing
either spelling produces the identical typed result; what never happens is
registering the same switch string twice (the registered option strings are
pairwise distinct). -/
theorem c8_alias_equivalence :
    (∀ v : String,
      parseOptions [("--master"), v, ("job.py")] =
        Except.ok { scriptOrJar := Option.some ("job.py"),
                    typed := [(("spark_master"), PyValue.str v)] } ∧
      parseOptions [("--spark-master"), v, ("job.py")] =
        Except.ok { scriptOrJar := Option.some ("job.py"),
                    typed := [(("spark_master"), PyValue.str v)] }) ∧
    liveSwitches.Nodup := by
  exact ⟨fun v => ⟨rfl, rfl⟩, by decide⟩

/-- Witness for C8's amended equivalence at the value `yarn`. -/
theorem c8_alias_equivalence_witness :
    parseOptions [("--master"), ("yarn"), ("job.py")] =
      Except.ok { scriptOrJar := Option.some ("job.py"),
                  typed := [(("spark_master"), PyValue.str ("yarn"))] } :=
  (c8_alias_equivalence.1 ("yarn")).1

/-- C9: every run outcome hands the backend a configuration in which the
fixed overrides (`check_input_paths = False`, `output_dir = None`) and the
synthetic empty input (`input_paths = [os.devnull]`) are bound last, so
they override any typed value for the same key. -/
theorem c9_hard_coded_overrides (opts : ParsedOptions) (clArgs : List String)
    (al : String) (kw : List (String × PyValue)) (st : SparkStep)
    (h : mainWithOptions opts clArgs = Outcome.run al kw st) :
    lookupKey kw ("check_input_paths") = Option.some (PyValue.bool false) ∧
    lookupKey kw ("output_dir") = Option.some PyValue.none ∧
    lookupKey kw ("input_paths") = Option.some (PyValue.list [devNull]) := by
  unfold mainWithOptions at h
  by_cases hc : (opts.help || opts.scriptOrJar.isNone) = true
  · rw [if_pos hc] at h
    exact absurd h (by simp)
  · rw [if_neg hc] at h
    simp only [] at h
    cases hst : getStep opts.posArgs
        (match lookupKey opts.typed ("main_class") with
          | Option.some (PyValue.str s) => Option.some s
          | _ => Option.none)
        (getSparkArgs makeArgActions clArgs) (opts.scriptOrJar.getD "") with
    | error m =>
      rw [hst] at h
      exact absurd h (by simp)
    | ok st' =>
      rw [hst] at h
      have hkw : kw =
          setItem
            (updateMany
              (getRunnerOptKwargs opts (opts.runner.getD defaultRunner))
              hardCodedOpts)
            ("input_paths") (PyValue.list [devNull]) := by
        cases h
        rfl
      have hupd : updateMany
          (getRunnerOptKwargs opts (opts.runner.getD defaultRunner))
          hardCodedOpts =
        setItem
          (setItem (getRunnerOptKwargs opts (opts.runner.getD defaultRunner))
            ("check_input_paths") (PyValue.bool false))
          ("output_dir") PyValue.none := rfl
      subst hkw
      rw [hupd]
      refine ⟨?_, ?_, ?_⟩
      · rw [lookupKey_setItem_ne _ _ _ _ (by decide),
          lookupKey_setItem_ne _ _ _ _ (by decide),
          lookupKey_setItem_self]
      · rw [lookupKey_setItem_ne _ _ _ _ (by decide), lookupKey_setItem_self]
      · rw [lookupKey_setItem_self]

/-- Witness for C9 at the bare `job.py` submission. -/
theorem c9_hard_coded_overrides_witness :
    lookupKey
        [(("input_paths"), PyValue.list [devNull]),
         (("output_dir"), PyValue.none),
         (("check_input_paths"), PyValue.bool false)]
        ("check_input_paths") = Option.some (PyValue.bool false) :=
  (c9_hard_coded_overrides { scriptOrJar := Option.some ("job.py") }
    [("job.py")] ("hadoop") _ (SparkStep.scriptStep ("job.py") [] [])
    rfl).1

/-- C10: for a dotless target path, the `py` prefix test applies to the
entire (lowercased) filename, so a dotless name beginning with `py` builds
a Script Step rather than failing classification. -/
theorem c10_dotless_py_name (args : List String) (mc : Option String)
    (sa : List String) (path : String) (hdot : ('.') ∉ path.data)
    (hpy : startsWithChars pyChars (lowerChars path.data) = true) :
    getStep args mc sa path =
      Except.ok (SparkStep.scriptStep path args sa) ∧
    lastPieceChars (lowerChars path.data) = lowerChars path.data := by
  have hld : ('.') ∉ lowerChars path.data := dot_notMem_lower hdot
  have hlast : lastPieceChars (lowerChars path.data) = lowerChars path.data :=
    lastPiece_no_dot hld
  refine ⟨?_, hlast⟩
  simp [getStep, endsWith_jar_eq_false hld, hlast, hpy]

/-- Witness for C10 at the dotless name `pyspark_job`. -/
theorem c10_dotless_py_name_witness :
    getStep [] Option.none [] ("pyspark_job") =
      Except.ok (SparkStep.scriptStep ("pyspark_job") [] []) :=
  (c10_dotless_py_name [] Option.none [] ("pyspark_job") (by decide)
    (by decide)).1

end SparkSubmit
